import Mathlib

/-!
# Verification of `scrape_mfa.py`

A shallow embedding of the checkpoint/pagination/join/dedup/retry core of
`scrape_mfa.py`, together with theorems settling the specification claims.

Modelling conventions:
* Python strings are Lean `String`s; `str.startswith(p)` is embedded as
  `p.data.isPrefixOf s.data` (prefix of the character sequence) and slicing
  `s[3:]` as dropping three characters.
* Python `int(s)` (as applied to a TSV field) is embedded by `parsePyInt`:
  an optional sign followed by decimal digits, `none` when the text does not
  parse (Python raises `ValueError` there).
* A file that may be absent is an `Option`; a computation that may raise is
  an `Except Unit` value, `Except.error ()` standing for an uncaught Python
  exception.
* Python dicts are embedded as functions `String → Option String` (key to
  value); `{**a, **b}` is `mergeDicts a b`, in which `b`'s bindings win.
-/

namespace ScrapeMfa

/-- `START_TIME = 1494028860`, the epoch constant from the source. -/
def START_TIME : Int := 1494028860

/-- The module-level constant `OUTPUT_FILE` from the source. -/
def OUTPUT_FILE : String := "./scrape_mfa_results.tsv"

/-- Decimal digits of a Python int literal body: `none` unless the character
list is nonempty and all digits (embeds the digit-run part of `int(...)`). -/
def parseDigits (cs : List Char) : Option Nat :=
  if cs = [] then none
  else cs.foldl
    (fun acc c => acc.bind fun n =>
      if c.isDigit then some (n * 10 + (c.toNat - 48)) else none)
    (some 0)

/-- Embeds Python `int(s)` on a TSV field: optional sign then decimal digits;
`none` models the `ValueError` raised on any other text. -/
def parsePyInt (s : String) : Option Int :=
  match s.data with
  | '-' :: rest => (parseDigits rest).map fun n => -(n : Int)
  | '+' :: rest => (parseDigits rest).map fun n => (n : Int)
  | cs => (parseDigits cs).map fun n => (n : Int)

/-- Embeds `int(row["thread_created_utc"])` for one store row (the row is
represented by the raw text of its `thread_created_utc` field, the only field
`initial_page_boundary` reads): `Except.error ()` models the uncaught
`ValueError`. -/
def parseRow (s : String) : Except Unit Int :=
  match parsePyInt s with
  | some n => Except.ok n
  | none => Except.error ()

/-- Embeds the generator `(int(row["thread_created_utc"]) for row in
reader)` as consumed by `max`: the parsed values of all rows in order, or the
first raised `ValueError`. -/
def readRows : List String → Except Unit (List Int)
  | [] => Except.ok []
  | r :: rs => do
      let v ← parseRow r
      let vs ← readRows rs
      Except.ok (v :: vs)

/-- Embeds `initial_page_boundary()`. The store contents are `none` when the
file is absent (Python's `FileNotFoundError` branch) and `some rows` when it
exists, each row given by its `thread_created_utc` field text.  The source
computes `max(chain((START_TIME,), (int(row[...]) for row in reader))) - 1`;
a row that fails to parse raises out of the function (only
`FileNotFoundError` is caught). -/
def initial_page_boundary (store : Option (List String)) : Except Unit Int :=
  match store with
  | none => Except.ok START_TIME
  | some rows => do
      let vals ← readRows rows
      Except.ok (vals.foldl max START_TIME - 1)

/-- Embeds `correct_parent_id`, as the transformation of the `parent_id`
field value: strip a `"t1_"` prefix; replace a `"t3_"`-prefixed value by
`None`; otherwise leave the value unchanged.  `startswith` is prefix of the
character sequence, `[3:]` drops three characters. -/
def correct_parent_id (p : String) : Option String :=
  if "t1_".data.isPrefixOf p.data then some (String.mk (p.data.drop 3))
  else if "t3_".data.isPrefixOf p.data then none
  else some p

/-- Embeds the checkpoint step of `scrape_mfa(columns_file, deduplicated_file,
output_file)`: the function body calls `initial_page_boundary()`, which opens
the module constant `OUTPUT_FILE`, not the `output_file` parameter.  `fs` maps
a path to the contents of the file at that path (`none` = absent). -/
def scrape_mfa_initial_cursor (fs : String → Option (List String))
    (output_file : String) : Except Unit Int :=
  initial_page_boundary (fs OUTPUT_FILE)

/-- The `sleeps` list of `main`. -/
def mainSleeps : List Nat := [80, 60, 30, 20, 10, 10, 0]

/-- Embeds the `while True` loop of `main`.  `outcome k` tells whether the
`k`-th (0-based) call of `scrape_mfa` succeeds (`true`) or raises (`false`).
State: attempt index `k`, the remaining `sleeps` list, and the sleeps already
waited (in order).  `sleeps.pop()` removes and returns the LAST element.
Result: (exit status, observed sleep delays in order, number of attempts). -/
def mainLoop (outcome : Nat → Bool) :
    Nat → List Nat → List Nat → Nat × List Nat × Nat
  | k, [], waited =>
      if outcome k then (0, waited, k + 1) else (1, waited, k + 1)
  | k, s :: ss, waited =>
      if outcome k then (0, waited, k + 1)
      else
        mainLoop outcome (k + 1) (s :: ss).dropLast
          (waited ++ [(s :: ss).getLast (List.cons_ne_nil s ss)])
  termination_by _k l _w => l.length
  decreasing_by simp [List.length_dropLast]

/-- Embeds `main`: run the loop from attempt 0 with the full backoff
schedule; exit status 0 on a successful pass, 1 when the budget is spent
(`sys.exit(1)`). -/
def main (outcome : Nat → Bool) : Nat × List Nat × Nat :=
  mainLoop outcome 0 mainSleeps []

/-- Embeds `chunk(size, iterable)`: consecutive groups of `size` items in
encounter order, last group possibly smaller (the `zip_longest` with a
private sentinel, followed by filtering the sentinel out; with `size = 0`
the `zip_longest` of no iterators yields nothing). -/
def chunk {α : Type} : Nat → List α → List (List α)
  | _, [] => []
  | 0, _ :: _ => []
  | s + 1, x :: xs =>
      (x :: xs).take (s + 1) :: chunk (s + 1) ((x :: xs).drop (s + 1))
  termination_by _ l => l.length
  decreasing_by
    simp [List.length_drop]
    omega

/-- A thread descriptor as produced by `fetch_dq_thread_page`. -/
structure Thread where
  thread_id : String
  thread_created_utc : Int
  thread_title : String
deriving DecidableEq

/-- Embeds the generator `fetch_dq_thread_ids(search_term, after, ...)`.
`src` is the page source (`fetch_dq_thread_page` for the fixed search term,
as a function of the `after` cursor).  The loop yields every thread of each
page and then re-queries with `after` set to the last yielded thread's
`thread_created_utc`; an empty page breaks the loop.  `fuel` bounds the
number of page fetches: `none` means the fuel ran out before the generator
terminated, `some ts` that it terminated having yielded exactly `ts`. -/
def fetch_dq_thread_ids (src : Int → List Thread) :
    Nat → Int → Option (List Thread)
  | 0, _ => none
  | fuel + 1, after =>
      match src after with
      | [] => some []
      | t :: ts =>
          (fetch_dq_thread_ids src fuel
              (((t :: ts).getLast (List.cons_ne_nil t ts)).thread_created_utc)).map
            fun rest => (t :: ts) ++ rest

/-- Embeds the Python dict merge `{**a, **b}`: a key bound in `b` gets `b`'s
value; otherwise `a`'s binding (if any) survives. -/
def mergeDicts (a b : String → Option String) : String → Option String :=
  fun k =>
    match b k with
    | some v => some v
    | none => a k

/-- `correct_parent_id` lifted to a comment dict: it rewrites exactly the
`"parent_id"` field (the source mutates `comment["parent_id"]` in place and
returns the same dict). -/
def correctParentIdDict (c : String → Option String) : String → Option String :=
  fun k =>
    if k = "parent_id" then (c "parent_id").bind correct_parent_id
    else c k

/-- Embeds the dict comprehension
`comment_dict = {comment["id"]: comment for comment in comments}` followed by
the lookup `comment_dict[comment["id"]]`: the LAST entry with a given id wins
(later dict-comprehension bindings override earlier ones); `none` models the
`KeyError` when no entry matches. -/
def lookupRef (refs : List (String → Option String)) (oid : Option String) :
    Option (String → Option String) :=
  refs.reverse.find? fun r => decide (r "id" = oid)

/-- Embeds the `yield {**correct_parent_id(comment), **thread_info}` line of
`fetch_comments`: the emitted record is the normalized raw comment with the
thread-info dict merged in LAST. -/
def fetch_comments_emit (raw thread_info : String → Option String) :
    String → Option String :=
  mergeDicts (correctParentIdDict raw) thread_info

/-- Embeds `fetch_comments(comments)` given the `response["data"]` list the
batch query returns: one record is emitted per raw comment in `data`, merging
in the comment-ref (`thread_info`) looked up by id; `none` models the
`KeyError` crash when a returned comment's id is not among the refs. -/
def fetch_comments (refs data : List (String → Option String)) :
    Option (List (String → Option String)) :=
  data.mapM fun c => (lookupRef refs (c "id")).map fun t => fetch_comments_emit c t

/-- A store row as read by `deduplicate`: its `id` field plus the rest of the
row (opaque). -/
structure Row where
  id : String
  rest : String
deriving DecidableEq

/-- The loop of `deduplicate`: walk the rows in stored order keeping the set
of ids already seen (Python's `set`; only membership matters, so it is kept
as a list); a row whose id is new is written and its id added.  Returns the
written rows (in order) and the final id set `comment_ids` (the function's
return value; the caller reads its `len`). -/
def dedupLoop : List Row → List String → List Row × List String
  | [], seen => ([], seen)
  | r :: rs, seen =>
      if r.id ∈ seen then dedupLoop rs seen
      else
        let p := dedupLoop rs (r.id :: seen)
        (r :: p.1, p.2)

/-- Embeds `deduplicate(in_handle, out_handle)`: rows written to the output
and the returned `comment_ids` set. -/
def deduplicate (rows : List Row) : List Row × List String :=
  dedupLoop rows []

/-- Spec-side description of deduplication, from the spec's words: keep
exactly the first occurrence of each id, in input order, dropping every later
record with an already-seen id. -/
def dedupSpecFirstOccurrence : List Row → List Row
  | [] => []
  | r :: rs =>
      r :: dedupSpecFirstOccurrence (rs.filter fun x => x.id ≠ r.id)
  termination_by l => l.length
  decreasing_by
    exact Nat.lt_succ_of_le (List.length_filter_le _ _)

/-- A concrete raw comment dict, used in counterexamples: it shares the keys
`id` and `thread_id` with its comment-ref. -/
def rawComment : String → Option String := fun k =>
  if k = "id" then some "c1"
  else if k = "thread_id" then some "X"
  else if k = "parent_id" then some "t1_p9"
  else none

/-- A concrete comment-ref dict (`{"id": ..., **thread}` entry of
`comment_dict`) for the same comment id as `rawComment`, disagreeing with it
on the shared key `thread_id`. -/
def threadInfoC : String → Option String := fun k =>
  if k = "id" then some "c1"
  else if k = "thread_id" then some "Y"
  else if k = "thread_created_utc" then some "1600000000"
  else if k = "thread_title" then some "Daily Questions" else none

/-- A concrete file system for the CLI-override scenario: the overridden
store `custom.tsv` holds one record, the default `OUTPUT_FILE` is absent. -/
def fsCustom : String → Option (List String) := fun p =>
  if p = "custom.tsv" then some ["2000000000"] else none

/-- The deduplication example from the spec: input rows with ids
`[a, b, a, c, b]`. -/
def exampleRows : List Row :=
  [⟨"a", "r0"⟩, ⟨"b", "r1"⟩, ⟨"a", "r2"⟩, ⟨"c", "r3"⟩, ⟨"b", "r4"⟩]

/-- A character list with prefix `t1_` does not have prefix `t3_`. -/
lemma t1_prefix_not_t3 (l : List Char)
    (h : "t1_".data.isPrefixOf l = true) : "t3_".data.isPrefixOf l = false := by
  match l with
  | [] => simp at h
  | [c] => simp [List.isPrefixOf] at h
  | c :: c2 :: rest =>
      simp only [show "t1_".data = ['t', '1', '_'] from rfl,
        List.isPrefixOf_cons₂, Bool.and_eq_true, beq_iff_eq] at h
      obtain ⟨hc, hc2, -⟩ := h
      subst hc; subst hc2
      simp [show "t3_".data = ['t', '3', '_'] from rfl, List.isPrefixOf_cons₂]

/-- A character list with prefix `t3_` does not have prefix `t1_`. -/
lemma t3_prefix_not_t1 (l : List Char)
    (h : "t3_".data.isPrefixOf l = true) : "t1_".data.isPrefixOf l = false := by
  match l with
  | [] => simp at h
  | [c] => simp [List.isPrefixOf] at h
  | c :: c2 :: rest =>
      simp only [show "t3_".data = ['t', '3', '_'] from rfl,
        List.isPrefixOf_cons₂, Bool.and_eq_true, beq_iff_eq] at h
      obtain ⟨hc, hc2, -⟩ := h
      subst hc; subst hc2
      simp [show "t1_".data = ['t', '1', '_'] from rfl, List.isPrefixOf_cons₂]

/-- If every row's `thread_created_utc` parses, reading the store raises
nothing. -/
lemma readRows_ok (rows : List String)
    (h : ∀ r ∈ rows, (parsePyInt r).isSome) :
    ∃ vals, readRows rows = Except.ok vals := by
  induction rows with
  | nil => exact ⟨[], rfl⟩
  | cons r rs ih =>
      have hr := h r (List.mem_cons_self r rs)
      obtain ⟨n, hn⟩ := Option.isSome_iff_exists.mp hr
      obtain ⟨vals, hv⟩ := ih fun x hx => h x (List.mem_cons_of_mem _ hx)
      refine ⟨n :: vals, ?_⟩
      simp only [readRows, parseRow, hn, hv]
      rfl

/-- If some row's `thread_created_utc` does not parse, reading the store
raises. -/
lemma readRows_error (rows : List String)
    (h : ∃ r ∈ rows, parsePyInt r = none) :
    readRows rows = Except.error () := by
  induction rows with
  | nil => obtain ⟨r, hr, -⟩ := h; cases hr
  | cons r rs ih =>
      obtain ⟨x, hx, hxp⟩ := h
      rcases List.mem_cons.mp hx with hx | hx
      · subst hx
        simp only [readRows, parseRow, hxp]
        rfl
      · cases hrp : parsePyInt r with
        | none =>
            simp only [readRows, parseRow, hrp]
            rfl
        | some n =>
            have := ih ⟨x, hx, hxp⟩
            simp only [readRows, parseRow, hrp, this]
            rfl

/-- C1: the checkpoint resolver on a store file that exists but holds zero
records.  The source computes `max(chain((START_TIME,), ())) - 1 =
START_TIME - 1 = 1494028859`, while both the claim and the function's own
docstring say an empty store yields `START_TIME = 1494028860`. -/
theorem initial_page_boundary_empty_store :
    initial_page_boundary (some []) = Except.ok (START_TIME - 1) ∧
    START_TIME - 1 ≠ START_TIME ∧
    initial_page_boundary none = Except.ok START_TIME :=
  ⟨rfl, by decide, rfl⟩

/-- C4, counterexample: the source emits
`{**correct_parent_id(comment), **thread_info}`, so on the shared key
`thread_id` the THREAD's value (`"Y"`) wins over the raw comment's (`"X"`),
refuting the claim that the emitted record carries the raw comment's value
for shared keys. -/
theorem fetch_comments_shared_key_counterexample :
    (fetch_comments [threadInfoC] [rawComment]).map
        (fun out => out.map fun d => d "thread_id") = some [some "Y"] ∧
    rawComment "thread_id" = some "X" ∧
    threadInfoC "thread_id" = some "Y" ∧
    ("Y" : String) ≠ "X" :=
  ⟨rfl, rfl, rfl, by decide⟩

/-- C4, amended: in the emitted record the thread-info dict's bindings win on
every key it carries; the (normalized) raw comment's binding is used exactly
for the keys the thread-info dict lacks. -/
theorem fetch_comments_merge_thread_wins
    (raw t : String → Option String) (k : String) :
    (∀ v, t k = some v → fetch_comments_emit raw t k = some v) ∧
    (t k = none → fetch_comments_emit raw t k = correctParentIdDict raw k) := by
  constructor
  · intro v hv
    simp [fetch_comments_emit, mergeDicts, hv]
  · intro hn
    simp [fetch_comments_emit, mergeDicts, hn]

/-- C4, witness for the amended theorem at concrete inputs. -/
theorem fetch_comments_merge_thread_wins_witness :
    fetch_comments_emit rawComment threadInfoC "thread_id" = some "Y" ∧
    fetch_comments_emit rawComment threadInfoC "body" =
      correctParentIdDict rawComment "body" :=
  ⟨(fetch_comments_merge_thread_wins rawComment threadInfoC "thread_id").1 "Y" rfl,
   (fetch_comments_merge_thread_wins rawComment threadInfoC "body").2 rfl⟩

/-- C5, counterexample: a store containing one row whose
`thread_created_utc` field is the non-numeric text `"abc"` makes
`initial_page_boundary` raise (`int("abc")` raises `ValueError`, and only
`FileNotFoundError` is caught), refuting "returns a cursor rather than
raising" and "malformed rows are excluded". -/
theorem initial_page_boundary_malformed_raises :
    initial_page_boundary (some ["abc"]) = Except.error () ∧
    parsePyInt "abc" = none :=
  ⟨rfl, rfl⟩

/-- C5, amended: an absent store yields the epoch constant, a store all of
whose rows parse yields a cursor, but a store with any row whose
`thread_created_utc` does not parse as an integer makes
`initial_page_boundary` raise (the malformed row is not excluded). -/
theorem initial_page_boundary_error_behaviour (rows : List String) :
    initial_page_boundary none = Except.ok START_TIME ∧
    ((∀ r ∈ rows, (parsePyInt r).isSome) →
      ∃ c, initial_page_boundary (some rows) = Except.ok c) ∧
    ((∃ r ∈ rows, parsePyInt r = none) →
      initial_page_boundary (some rows) = Except.error ()) := by
  refine ⟨rfl, ?_, ?_⟩
  · intro h
    obtain ⟨vals, hv⟩ := readRows_ok rows h
    refine ⟨vals.foldl max START_TIME - 1, ?_⟩
    simp only [initial_page_boundary, hv]
    rfl
  · intro h
    simp only [initial_page_boundary, readRows_error rows h]
    rfl

/-- C5, witness for the amended theorem: a well-formed store resolves to a
cursor; a malformed one raises. -/
theorem initial_page_boundary_error_behaviour_witness :
    (∃ c, initial_page_boundary (some ["1600000000"]) = Except.ok c) ∧
    initial_page_boundary (some ["abcdef"]) = Except.error () :=
  ⟨(initial_page_boundary_error_behaviour ["1600000000"]).2.1 (by decide),
   (initial_page_boundary_error_behaviour ["abcdef"]).2.2 ⟨"abcdef", by simp, rfl⟩⟩

/-- C6: with the store path overridden to `custom.tsv` (holding one record
with timestamp 2000000000), the checkpoint step of `scrape_mfa` still reads
the hardcoded `OUTPUT_FILE` (absent, so it resolves to `START_TIME`), not the
overridden store, whose records would resolve to `1999999999`. -/
theorem scrape_mfa_cursor_ignores_override :
    scrape_mfa_initial_cursor fsCustom "custom.tsv" = Except.ok START_TIME ∧
    initial_page_boundary (fsCustom "custom.tsv") = Except.ok 1999999999 ∧
    START_TIME ≠ (1999999999 : Int) :=
  ⟨rfl, rfl, by decide⟩

/-- C8: `correct_parent_id` maps a `parent_id` with the comment-parent
prefix `t1_` to the non-null remainder after that prefix, and a `parent_id`
with the submission-parent prefix `t3_` to null. -/
theorem correct_parent_id_prefixes (p : String) :
    ("t1_".data.isPrefixOf p.data = true →
      correct_parent_id p = some (String.mk (p.data.drop 3))) ∧
    ("t3_".data.isPrefixOf p.data = true → correct_parent_id p = none) := by
  constructor
  · intro h
    simp [correct_parent_id, h]
  · intro h
    simp [correct_parent_id, h, t3_prefix_not_t1 p.data h]

/-- C8, witness at the concrete parent ids `"t1_abc"` and `"t3_abc"`. -/
theorem correct_parent_id_prefixes_witness :
    correct_parent_id "t1_abc" = some "abc" ∧
    correct_parent_id "t3_abc" = none :=
  ⟨(correct_parent_id_prefixes "t1_abc").1 (by decide),
   (correct_parent_id_prefixes "t3_abc").2 (by decide)⟩

/-- C9: whenever the page source returns an empty page for the current
cursor, the generator terminates at once, yielding nothing and raising
nothing, whatever fuel remains. -/
theorem fetch_dq_thread_ids_empty_page_halts (src : Int → List Thread)
    (after : Int) (fuel : Nat) (h : src after = []) :
    fetch_dq_thread_ids src (fuel + 1) after = some [] := by
  simp [fetch_dq_thread_ids, h]

/-- C9, witness: a page source that is empty everywhere halts the generator
immediately. -/
theorem fetch_dq_thread_ids_empty_page_halts_witness :
    fetch_dq_thread_ids (fun _ => []) 1 0 = some [] :=
  fetch_dq_thread_ids_empty_page_halts (fun _ => []) 0 0 rfl

/-- C10: a `parent_id` starting with neither `t1_` nor `t3_` passes through
`correct_parent_id` verbatim, and (when the thread-info dict carries no
`parent_id` key, as in the source) reaches the emitted record unaltered. -/
theorem correct_parent_id_passthrough (p : String)
    (raw t : String → Option String)
    (h1 : "t1_".data.isPrefixOf p.data = false)
    (h3 : "t3_".data.isPrefixOf p.data = false) :
    correct_parent_id p = some p ∧
    (raw "parent_id" = some p → t "parent_id" = none →
      fetch_comments_emit raw t "parent_id" = some p) := by
  simp only [← Bool.not_eq_true] at h1 h3
  simp only [List.isPrefixOf_iff_prefix] at h1 h3
  constructor
  · simp [correct_parent_id, h1, h3]
  · intro hraw ht
    simp [fetch_comments_emit, mergeDicts, correctParentIdDict, ht, hraw,
      correct_parent_id, h1, h3]

/-- C10, witness at the concrete parent id `"q7_zz"`. -/
theorem correct_parent_id_passthrough_witness :
    correct_parent_id "q7_zz" = some "q7_zz" ∧
    fetch_comments_emit (fun k => if k = "parent_id" then some "q7_zz" else none)
      (fun _ => none) "parent_id" = some "q7_zz" := by
  have h := correct_parent_id_passthrough "q7_zz"
    (fun k => if k = "parent_id" then some "q7_zz" else none) (fun _ => none)
    (by decide) (by decide)
  exact ⟨h.1, h.2 rfl rfl⟩

/-- The written rows of the dedup loop are the first-occurrence records among
the rows whose id is not already in `seen`. -/
lemma dedupLoop_fst (rows : List Row) : ∀ seen : List String,
    (dedupLoop rows seen).1 =
      dedupSpecFirstOccurrence (rows.filter fun r => decide (r.id ∉ seen)) := by
  induction rows with
  | nil => intro seen; simp [dedupLoop, dedupSpecFirstOccurrence]
  | cons r rs ih =>
      intro seen
      by_cases hmem : r.id ∈ seen
      · have hp : decide (r.id ∉ seen) = false := by simp [hmem]
        simp only [dedupLoop, if_pos hmem, List.filter_cons, hp,
          Bool.false_eq_true, if_false]
        exact ih seen
      · have hp : decide (r.id ∉ seen) = true := by simp [hmem]
        simp only [dedupLoop, if_neg hmem, List.filter_cons, hp, if_true]
        rw [dedupSpecFirstOccurrence, List.filter_filter, ih (r.id :: seen)]
        have hfil : List.filter (fun x : Row => decide (x.id ∉ r.id :: seen)) rs =
            List.filter (fun a : Row => decide (a.id ≠ r.id) && decide (a.id ∉ seen)) rs := by
          apply List.filter_congr
          intro x _
          by_cases h1 : x.id = r.id <;> by_cases h2 : x.id ∈ seen <;>
            simp [List.mem_cons, h1, h2]
        rw [hfil]

/-- Each written row adds exactly one id to the seen set, so the set's size
counts the written rows. -/
lemma dedupLoop_snd_length (rows : List Row) : ∀ seen : List String,
    (dedupLoop rows seen).2.length = seen.length + (dedupLoop rows seen).1.length := by
  induction rows with
  | nil => intro seen; simp [dedupLoop]
  | cons r rs ih =>
      intro seen
      by_cases hmem : r.id ∈ seen
      · simp only [dedupLoop, if_pos hmem]
        exact ih seen
      · have h := ih (r.id :: seen)
        simp only [dedupLoop, if_neg hmem]
        simp only [List.length_cons] at h ⊢
        omega

/-- C3: `deduplicate` writes exactly the first occurrence of each id in input
order, dropping every already-seen id, and the returned `comment_ids` set has
exactly one element per written row (so its `len` is the unique-record
count); in particular ids `[a, b, a, c, b]` yield `[a, b, c]` and count 3. -/
theorem deduplicate_first_occurrences (rows : List Row) :
    (deduplicate rows).1 = dedupSpecFirstOccurrence rows ∧
    (deduplicate rows).2.length = (deduplicate rows).1.length ∧
    (deduplicate exampleRows).1.map Row.id = ["a", "b", "c"] ∧
    (deduplicate exampleRows).2.length = 3 := by
  refine ⟨?_, ?_, by decide, by decide⟩
  · have h := dedupLoop_fst rows []
    simpa [deduplicate] using h
  · have h := dedupLoop_snd_length rows []
    simpa [deduplicate] using h

/-- Flattening the chunks restores the input sequence. -/
lemma chunk_flatten {α : Type} (s : Nat) :
    ∀ (n : Nat) (l : List α), l.length ≤ n → (chunk (s + 1) l).flatten = l := by
  intro n
  induction n with
  | zero =>
      intro l hl
      have hnil : l = [] := List.eq_nil_of_length_eq_zero (Nat.le_zero.mp hl)
      subst hnil
      simp [chunk]
  | succ n ih =>
      intro l hl
      cases l with
      | nil => simp [chunk]
      | cons x xs =>
          have hxs : xs.length ≤ n := by
            simpa [List.length_cons] using hl
          simp only [chunk, List.flatten_cons]
          rw [ih ((x :: xs).drop (s + 1))
            (by simp only [List.length_drop, List.length_cons]; omega)]
          exact List.take_append_drop (s + 1) (x :: xs)

/-- The number of chunks is the length divided by the chunk size, rounded
up. -/
lemma chunk_length {α : Type} (s : Nat) :
    ∀ (n : Nat) (l : List α), l.length ≤ n →
      (chunk (s + 1) l).length = (l.length + s) / (s + 1) := by
  intro n
  induction n with
  | zero =>
      intro l hl
      have hnil : l = [] := List.eq_nil_of_length_eq_zero (Nat.le_zero.mp hl)
      subst hnil
      simp [chunk, Nat.div_eq_of_lt (Nat.lt_succ_self s)]
  | succ n ih =>
      intro l hl
      cases l with
      | nil => simp [chunk, Nat.div_eq_of_lt (Nat.lt_succ_self s)]
      | cons x xs =>
          have hxs : xs.length ≤ n := by
            simpa [List.length_cons] using hl
          simp only [chunk, List.length_cons]
          rw [ih ((x :: xs).drop (s + 1))
            (by simp only [List.length_drop, List.length_cons]; omega)]
          simp only [List.length_drop, List.length_cons]
          rcases Nat.lt_or_ge s xs.length with hcase | hcase
          · rw [show xs.length + 1 - (s + 1) = xs.length - s by omega,
              Nat.sub_add_cancel (Nat.le_of_lt hcase),
              show xs.length + 1 + s = xs.length + (s + 1) by omega,
              Nat.add_div_right _ (Nat.succ_pos s)]
          · rw [show xs.length + 1 - (s + 1) = 0 by omega]
            have h1 : (0 + s) / (s + 1) = 0 := Nat.div_eq_of_lt (by omega)
            have h2 : (xs.length + 1 + s) / (s + 1) = 1 :=
              Nat.div_eq_of_lt_le (by omega) (by omega)
            rw [h1, h2]

/-- Every chunk holds at most the chunk size many items. -/
lemma chunk_mem_length {α : Type} (s : Nat) :
    ∀ (n : Nat) (l : List α), l.length ≤ n →
      ∀ c ∈ chunk (s + 1) l, c.length ≤ s + 1 := by
  intro n
  induction n with
  | zero =>
      intro l hl c hc
      have hnil : l = [] := List.eq_nil_of_length_eq_zero (Nat.le_zero.mp hl)
      subst hnil
      simp [chunk] at hc
  | succ n ih =>
      intro l hl c hc
      cases l with
      | nil => simp [chunk] at hc
      | cons x xs =>
          have hxs : xs.length ≤ n := by
            simpa [List.length_cons] using hl
          simp only [chunk, List.mem_cons] at hc
          rcases hc with rfl | hc
          · simp only [List.length_take, List.length_cons]
            omega
          · exact ih ((x :: xs).drop (s + 1))
              (by simp only [List.length_drop, List.length_cons]; omega) c hc

/-- C7: for a positive batch size `B`, chunking `N` identifiers yields
`⌈N/B⌉` batches — hence `⌈N/B⌉` resolve queries, `fetch_comments` issuing
exactly one query per batch — each of at most `B` identifiers, and the
concatenation of the batches in order is exactly the input sequence (nothing
omitted, duplicated or reordered). -/
theorem chunk_batches (B : Nat) (hB : 0 < B) (l : List String) :
    (chunk B l).length = (l.length + B - 1) / B ∧
    (∀ c ∈ chunk B l, c.length ≤ B) ∧
    (chunk B l).flatten = l := by
  obtain ⟨s, rfl⟩ : ∃ s, B = s + 1 := ⟨B - 1, by omega⟩
  refine ⟨?_, chunk_mem_length s l.length l (le_refl _),
    chunk_flatten s l.length l (le_refl _)⟩
  rw [chunk_length s l.length l (le_refl _),
    show l.length + (s + 1) - 1 = l.length + s by omega]

/-- C7, witness at batch size 2 over three identifiers. -/
theorem chunk_batches_witness :
    (chunk 2 ["a", "b", "c"]).length = (3 + 2 - 1) / 2 ∧
    (∀ c ∈ chunk 2 ["a", "b", "c"], c.length ≤ 2) ∧
    (chunk 2 ["a", "b", "c"]).flatten = ["a", "b", "c"] := by
  have h := chunk_batches 2 (by norm_num) ["a", "b", "c"]
  simpa using h

/-- C2: if the first seven pipeline attempts fail, the seven backoff waits
`[0, 10, 10, 20, 30, 60, 80]` are observed in that order over eight attempts
in total; the eighth attempt's outcome then decides everything: success exits
with status 0, an eighth failure exits with status 1 and no ninth attempt is
made. -/
theorem main_retry_budget (outcome : Nat → Bool)
    (h7 : ∀ k, k < 7 → outcome k = false) :
    (outcome 7 = true → main outcome = (0, [0, 10, 10, 20, 30, 60, 80], 8)) ∧
    (outcome 7 = false → main outcome = (1, [0, 10, 10, 20, 30, 60, 80], 8)) := by
  have e0 : outcome 0 = false := h7 0 (by norm_num)
  have e1 : outcome 1 = false := h7 1 (by norm_num)
  have e2 : outcome 2 = false := h7 2 (by norm_num)
  have e3 : outcome 3 = false := h7 3 (by norm_num)
  have e4 : outcome 4 = false := h7 4 (by norm_num)
  have e5 : outcome 5 = false := h7 5 (by norm_num)
  have e6 : outcome 6 = false := h7 6 (by norm_num)
  constructor
  · intro h8
    simp [main, mainSleeps, mainLoop, e0, e1, e2, e3, e4, e5, e6, h8,
      List.getLast, List.dropLast]
  · intro h8
    simp [main, mainSleeps, mainLoop, e0, e1, e2, e3, e4, e5, e6, h8,
      List.getLast, List.dropLast]

/-- C2, witness: seven failures then a success exit 0; eight failures exit 1,
both after exactly the seven listed waits and eight attempts. -/
theorem main_retry_budget_witness :
    main (fun k => decide (7 ≤ k)) = (0, [0, 10, 10, 20, 30, 60, 80], 8) ∧
    main (fun _ => false) = (1, [0, 10, 10, 20, 30, 60, 80], 8) :=
  ⟨(main_retry_budget (fun k => decide (7 ≤ k))
      (by intro k hk; simp; omega)).1 (by simp),
   (main_retry_budget (fun _ => false) (fun _ _ => rfl)).2 rfl⟩

end ScrapeMfa
